import Mathlib

/-!
Verification of the cline CLI streaming-response pipeline and persistent
state store, shallowly embedded from the TypeScript sources:

* `SimpleApiHandler` (the provider stream decoders and the dispatcher
  `buildSimpleApiHandler`),
* `CliContext` (the JSON-file-backed persistent state store),
* `CliController` (the session orchestrator: `executeTask`, `saveToHistory`).

Modelling conventions:

* JS strings are modelled as `List Char` inside the decoder loop (the
  `TextDecoder(stream:true)` step guarantees that the decoded text of a
  concatenation of byte reads is the concatenation of the decoded texts, so
  reads are modelled directly as decoded text fragments).
* `JSON.parse` is an external library call; it is modelled as an abstract
  parameter `parse : String → Option Json` (`none` = the parse threw).
  Field access such as `parsed.delta?.text` is modelled over a `Json` value
  tree, and JS truthiness (`if (parsed.delta?.text)`) by `Json.truthy`.
* An `async generator` is modelled by the list of chunks it yields; a
  rejection of the underlying network read is an explicit `ReadEnd.fail`
  event carrying the JS string interpolation of the thrown value.
-/

namespace Cline

/-- A JSON value, as returned by `JSON.parse`. Object fields keep their
textual order; `JSON.parse` never produces duplicate keys. -/
inductive Json where
  | null
  | bool (b : Bool)
  | num (n : Int)
  | str (s : String)
  | arr (elems : List Json)
  | obj (fields : List (String × Json))

/-- First-match association-list lookup, the semantics of a JS property
read on a plain parsed object. -/
def lookupField : List (String × Json) → String → Option Json
  | [], _ => none
  | (k', v) :: rest, k => if k' = k then some v else lookupField rest k

/-- JS property access `j.k` on a parsed JSON value: only objects have
(own) named properties.  (On `null` the JS access throws, but every such
access in the handlers sits inside a `try` whose `catch` ignores the
frame, which is observationally the same as the access yielding nothing.) -/
def Json.getField : Json → String → Option Json
  | .obj fs, k => lookupField fs k
  | _, _ => none

/-- JS indexed access `j?.[i]` as used by `parsed.choices?.[0]`:
arrays index their elements, strings their characters, objects their
`toString i` property; anything else gives `undefined`. -/
def Json.getIdx : Json → Nat → Option Json
  | .arr xs, i => xs.get? i
  | .str s, i => (s.toList.get? i).map (fun c => Json.str (String.mk [c]))
  | .obj fs, i => lookupField fs (toString i)
  | _, _ => none

/-- JS truthiness of a parsed JSON value (`if (v)`): `null`, `false`,
`0` and `""` are falsy, every array or object is truthy. -/
def Json.truthy : Json → Bool
  | .null => false
  | .bool b => b
  | .num n => n != 0
  | .str s => s != ""
  | .arr _ => true
  | .obj _ => true

/-- Does this JSON value equal the given string (JS `===` against a string
literal)? -/
def Json.isStr : Json → String → Bool
  | .str t, s => t = s
  | _, _ => false

/-- JS string coercion of the yielded delta value.  The handlers' TS
signature declares the payload a string, and every conforming provider
frame carries a string there; a non-string (protocol-violating) truthy
value would be coerced by the consumer (`response += chunk.text`), which
this function renders for the leaf cases that JS defines. -/
def Json.jsCoerceString : Json → String
  | .null => "null"
  | .bool true => "true"
  | .bool false => "false"
  | .num n => toString n
  | .str s => s
  | .arr _ => ""
  | .obj _ => "[object Object]"

/-- One unit of streamed output: the handlers yield
`{ type: "text", text: … }` or `{ type: "error", text: … }`. -/
inductive Chunk where
  | text (payload : String)
  | error (message : String)
deriving DecidableEq

/-- How the response byte stream ends after its listed reads: `done`
models `reader.read()` resolving `{done: true}`, `fail m` models the read
(or any awaited step) rejecting, `m` being the JS string interpolation
`` `${error}` `` of the thrown value. -/
inductive ReadEnd where
  | done
  | fail (msg : String)

/-- `buffer.split("\n")` followed by `buffer = lines.pop() || ""`:
returns (complete lines, trailing fragment after the last newline). -/
def splitNl : List Char → List (List Char) × List Char
  | [] => ([], [])
  | c :: rest =>
    if c = '\n' then ([] :: (splitNl rest).1, (splitNl rest).2)
    else
      match splitNl rest with
      | ([], tail) => ([], c :: tail)
      | (l :: ls, tail) => ((c :: l) :: ls, tail)

/-- The `for (const line of lines)` body, abstracted per provider: a line
processor returns the chunks the line yields and whether the generator
`return`s (end-of-stream sentinel). -/
abbrev LineProc := List Char → List Chunk × Bool

/-- Run the per-line loop over a list of complete lines; stops at the
first line whose processor signals `return`. -/
def processLines (proc : LineProc) : List (List Char) → List Chunk × Bool
  | [] => ([], false)
  | l :: ls =>
    let r := proc l
    if r.2 then (r.1, true)
    else ((r.1 ++ (processLines proc ls).1), (processLines proc ls).2)

/-- The shared `while (true) { reader.read(); buffer += …; split; pop;
for … }` loop of every handler: `buf` is the retained decode buffer,
`reads` the successive decoded read fragments, `e` how the stream ends.
On normal end the trailing buffer is discarded; a rejected read is caught
by the handler's outer `catch`, which yields one
`` `Error: ${error}` `` chunk. -/
def runDecoder (proc : LineProc) (buf : List Char) :
    List (List Char) → ReadEnd → List Chunk
  | [], .done => []
  | [], .fail m => [Chunk.error ("Error: " ++ m)]
  | r :: rs, e =>
    let split := splitNl (buf ++ r)
    let step := processLines proc split.1
    if step.2 then step.1 else step.1 ++ runDecoder proc split.2 rs e

/-- The resolved `ApiConfiguration` fields the CLI handlers read
(TS optional string fields are `Option String`). -/
structure ApiConfiguration where
  apiProvider : Option String := none
  apiKey : Option String := none
  openAiNativeApiKey : Option String := none
  ollamaBaseUrl : Option String := none
  apiModelId : Option String := none

/-- An HTTP response as the handlers observe it: the `ok`/`status`/
`statusText` fields checked up front, and the streamed body —
`none` models a `null` body (`response.body?.getReader()` missing),
otherwise the decoded read fragments plus how the stream ends. -/
structure HttpResponse where
  ok : Bool
  status : Nat
  statusText : String
  body : Option (List (List Char) × ReadEnd)

/-- The outcome of `await fetch(...)` itself: `.error m` models the fetch
rejecting, with `m` the string interpolation of the thrown value. -/
abbrev FetchResult := Except String HttpResponse

/-- The error chunk produced when `if (!response.ok) throw new Error(
`API request failed: ${status} ${statusText}`)` is caught by the outer
`catch (error) { yield { type: "error", text: `Error: ${error}` } }`:
a JS `Error` interpolates as `Error: <message>`. -/
def statusErrorChunk (status : Nat) (statusText : String) : Chunk :=
  Chunk.error ("Error: Error: API request failed: " ++ toString status ++ " " ++ statusText)

/-- Shared shape of all four streaming handlers' `createMessage` after the
request is issued: status check, body check, then the buffered read loop. -/
def handlerRun (proc : LineProc) (fetch : FetchResult) : List Chunk :=
  match fetch with
  | .error m => [Chunk.error ("Error: " ++ m)]
  | .ok resp =>
    if !resp.ok then [statusErrorChunk resp.status resp.statusText]
    else
      match resp.body with
      | none => [Chunk.error "Error: Error: No response body"]
      | some (reads, e) => runDecoder proc [] reads e

/-- `parsed.type === "content_block_delta" && parsed.delta?.text` — the
Anthropic handler's delta extraction, `some v` iff the condition is truthy,
`v` being the value yielded as the chunk text. -/
def anthropicDelta (j : Json) : Option Json :=
  match j.getField "type" with
  | some t =>
    if t.isStr "content_block_delta" then
      match (j.getField "delta").bind (fun d => d.getField "text") with
      | some v => if v.truthy then some v else none
      | none => none
    else none
  | none => none

/-- `parsed.choices?.[0]?.delta?.content` — the OpenAI-style delta
extraction (also used verbatim by the SiliconFlow handler), `some v` iff
the chained access yields a truthy value. -/
def openAIDelta (j : Json) : Option Json :=
  match ((j.getField "choices").bind (fun c => c.getIdx 0)
      |>.bind (fun d => d.getField "delta")
      |>.bind (fun d => d.getField "content")) with
  | some v => if v.truthy then some v else none
  | none => none

/-- `parsed.message?.content` — the Ollama handler's delta extraction. -/
def ollamaContent (j : Json) : Option Json :=
  match (j.getField "message").bind (fun m => m.getField "content") with
  | some v => if v.truthy then some v else none
  | none => none

/-- `if (parsed.done) return` — truthiness of the Ollama `done` field. -/
def ollamaDone (j : Json) : Bool :=
  match j.getField "done" with
  | some v => v.truthy
  | none => false

/-- One loop body line of the Anthropic (SSE) handler: only `data: `
prefixed lines are considered; `[DONE]` returns; otherwise the payload is
JSON-parsed (a parse throw is caught and ignored) and a truthy
`delta.text` on a `content_block_delta` event yields one text chunk. -/
def anthropicLine (parse : String → Option Json) : LineProc := fun line =>
  if "data: ".toList.isPrefixOf line then
    let data := line.drop 6
    if data = "[DONE]".toList then ([], true)
    else
      match parse (String.mk data) with
      | some j =>
        match anthropicDelta j with
        | some v => ([Chunk.text v.jsCoerceString], false)
        | none => ([], false)
      | none => ([], false)
  else ([], false)

/-- One loop body line of the OpenAI-style (SSE) handlers (OpenAI and
SiliconFlow share this code verbatim): like `anthropicLine` but with the
`choices[0].delta.content` field path. -/
def openAILine (parse : String → Option Json) : LineProc := fun line =>
  if "data: ".toList.isPrefixOf line then
    let data := line.drop 6
    if data = "[DONE]".toList then ([], true)
    else
      match parse (String.mk data) with
      | some j =>
        match openAIDelta j with
        | some v => ([Chunk.text v.jsCoerceString], false)
        | none => ([], false)
      | none => ([], false)
  else ([], false)

/-- `line.trim()` (JS `String.prototype.trim`): strip whitespace from
both ends. -/
def jsTrim (l : List Char) : List Char :=
  ((l.dropWhile Char.isWhitespace).reverse.dropWhile Char.isWhitespace).reverse

/-- One loop body line of the Ollama handler: a line that is non-empty
after trimming is JSON-parsed (the untrimmed line is what is parsed); a
truthy `message.content` yields one text chunk and a truthy `done` field
then returns — both can fire on the same frame. -/
def ollamaLine (parse : String → Option Json) : LineProc := fun line =>
  if jsTrim line ≠ [] then
    match parse (String.mk line) with
    | some j =>
      (match ollamaContent j with
        | some v => [Chunk.text v.jsCoerceString]
        | none => [],
       ollamaDone j)
    | none => ([], false)
  else ([], false)

/-- `AnthropicSimpleHandler.createMessage`, as the list of chunks the
async generator yields for a given fetch outcome. -/
def anthropicCreateMessage (parse : String → Option Json) (fetch : FetchResult) : List Chunk :=
  handlerRun (anthropicLine parse) fetch

/-- `OpenAISimpleHandler.createMessage`. -/
def openAICreateMessage (parse : String → Option Json) (fetch : FetchResult) : List Chunk :=
  handlerRun (openAILine parse) fetch

/-- `SiliconFlowSimpleHandler.createMessage` (its loop body is
character-for-character the OpenAI one). -/
def siliconFlowCreateMessage (parse : String → Option Json) (fetch : FetchResult) : List Chunk :=
  handlerRun (openAILine parse) fetch

/-- `OllamaSimpleHandler.createMessage`. -/
def ollamaCreateMessage (parse : String → Option Json) (fetch : FetchResult) : List Chunk :=
  handlerRun (ollamaLine parse) fetch

/-- A successful (status-ok) fetch whose body is the given reads —
convenience constructor used in the statements below. -/
def streamOk (reads : List (List Char)) (e : ReadEnd) : FetchResult :=
  .ok { ok := true, status := 200, statusText := "OK", body := some (reads, e) }

/-- `${v}` for a TS `string | undefined` template interpolation. -/
def jsInterpOpt : Option String → String
  | none => "undefined"
  | some s => s

/-- `${v || "none"}` — JS `||` falls through on the falsy values
`undefined` and `""`. -/
def jsOrNone : Option String → String
  | none => "none"
  | some s => if s = "" then "none" else s

/-- The template literal yielded by `MockSimpleHandler.createMessage`
(reproduced verbatim, including its trailing spaces). -/
def mockResponseText (provider : Option String) (userMessage : String) : String :=
  "This is a mock response for provider \"" ++ jsInterpOpt provider ++
    ("\". \n\n" ++
     "Your request: \"" ++ userMessage ++ "\"\n\n" ++
     "To use the full Cline experience with real AI responses, please:\n" ++
     "1. Configure a supported provider (anthropic, openai-native, or ollama)\n" ++
     "2. Provide valid API credentials\n" ++
     "3. Or use the VSCode extension version for full functionality\n\n" ++
     "Supported providers in CLI:\n" ++
     "- anthropic: Requires API key\n" ++
     "- openai-native: Requires API key  \n" ++
     "- ollama: Requires local Ollama server running\n\n" ++
     "Current provider: " ++ jsOrNone provider)

/-- `MockSimpleHandler.createMessage`: a single synthesized text chunk. -/
def mockCreateMessage (config : ApiConfiguration) (_systemPrompt userMessage : String) : List Chunk :=
  [Chunk.text (mockResponseText config.apiProvider userMessage)]

/-- The handler variants `buildSimpleApiHandler` can construct. -/
inductive HandlerKind where
  | anthropic
  | openaiNative
  | siliconflow
  | ollama
  | mock
deriving DecidableEq

/-- `buildSimpleApiHandler`'s `switch (config.apiProvider)`: the four
known identifiers map to their handlers, everything else (including an
unset provider) to the mock handler. -/
def buildSimpleApiHandler (config : ApiConfiguration) : HandlerKind :=
  if config.apiProvider = some "anthropic" then .anthropic
  else if config.apiProvider = some "openai-native" then .openaiNative
  else if config.apiProvider = some "siliconflow" then .siliconflow
  else if config.apiProvider = some "ollama" then .ollama
  else .mock

/-- `Object.entries(v)` as used (inside a `catch`-all) by
`CliContext.loadState`: objects list their fields, arrays and strings
their indexed elements, primitives have no own enumerable properties
(`null` would throw, which the surrounding `catch` turns into the same
empty result). -/
def objectEntries : Json → List (String × Json)
  | .obj fs => fs
  | .arr xs => xs.enum.map (fun p => (toString p.1, p.2))
  | .str s => s.toList.enum.map (fun p => (toString p.1, Json.str (String.mk [p.2])))
  | _ => []

/-- One `try { readFile; JSON.parse; new Map(Object.entries(..)) } catch
{ /- start empty -/ }` block of `CliContext.loadState`: `none` file
content models a missing/unreadable file, a `parse` failure models a
corrupt one; both leave the map empty. -/
def loadStateFrom (parse : String → Option Json) (file : Option String) :
    List (String × Json) :=
  match file with
  | none => []
  | some content =>
    match parse content with
    | none => []
    | some j => objectEntries j

/-- The three on-disk files `CliContext.loadState` reads. -/
structure StateFiles where
  globalStateFile : Option String
  workspaceStateFile : Option String
  secretsFile : Option String

/-- The in-memory maps of a `CliContext` (`_globalState`,
`_workspaceState`, `_secretStorage`).  JS `Map`s preserve insertion
order, modelled as association lists with unique keys. -/
structure CliState where
  globalState : List (String × Json)
  workspaceState : List (String × Json)
  secretStorage : List (String × Json)

/-- `CliContext.loadState`: each of the three files is loaded
independently; any failure leaves that map empty. -/
def loadState (parse : String → Option Json) (files : StateFiles) : CliState :=
  { globalState := loadStateFrom parse files.globalStateFile
    workspaceState := loadStateFrom parse files.workspaceStateFile
    secretStorage := loadStateFrom parse files.secretsFile }

/-- `CliContext.getTaskHistory`: returns `JSON.parse` of the history file,
or `[]` when the file is missing or unparsable. -/
def getTaskHistory (parse : String → Option Json) (file : Option String) : Json :=
  match file with
  | none => Json.arr []
  | some content =>
    match parse content with
    | none => Json.arr []
    | some j => j

/-- `CliContext.getApiConfiguration`: returns `JSON.parse` of the
api-config file, or `null` when the file is missing or unparsable. -/
def getApiConfiguration (parse : String → Option Json) (file : Option String) : Option Json :=
  match file with
  | none => none
  | some content => parse content

/-- JS `Map.prototype.set`: replace the value at an existing key in
place, otherwise append the new entry. -/
def mapSet : List (String × Json) → String → Json → List (String × Json)
  | [], k, v => [(k, v)]
  | (k', v') :: rest, k, v =>
    if k' = k then (k, v) :: rest else (k', v') :: mapSet rest k v

/-- JS `Map.prototype.delete`: remove the entry at the key (keys are
unique in a `Map`, so at most one entry matches). -/
def mapDelete : List (String × Json) → String → List (String × Json)
  | [], _ => []
  | (k', v') :: rest, k =>
    if k' = k then rest else (k', v') :: mapDelete rest k

/-- The contents `CliContext.saveState` writes: one full-file rewrite per
state file, each serialized (`JSON.stringify(Object.fromEntries(m))`)
from the corresponding in-memory map.  File contents are modelled by the
written object itself (the serialization is injective on these maps). -/
structure SavedFiles where
  globalStateFile : List (String × Json)
  workspaceStateFile : List (String × Json)
  secretsFile : List (String × Json)

/-- `CliContext.saveState`: writes all three files from the in-memory
maps. -/
def saveState (st : CliState) : SavedFiles :=
  { globalStateFile := st.globalState
    workspaceStateFile := st.workspaceState
    secretsFile := st.secretStorage }

/-- `CliContext.globalState.update(key, value)`: mutate the global map,
then `saveState`. -/
def globalStateUpdate (st : CliState) (key : String) (value : Json) :
    CliState × SavedFiles :=
  let st' := { st with globalState := mapSet st.globalState key value }
  (st', saveState st')

/-- `CliContext.workspaceState.update(key, value)`. -/
def workspaceStateUpdate (st : CliState) (key : String) (value : Json) :
    CliState × SavedFiles :=
  let st' := { st with workspaceState := mapSet st.workspaceState key value }
  (st', saveState st')

/-- `CliContext.secrets.store(key, value)` (secret values are strings). -/
def secretsStore (st : CliState) (key : String) (value : String) :
    CliState × SavedFiles :=
  let st' := { st with secretStorage := mapSet st.secretStorage key (Json.str value) }
  (st', saveState st')

/-- `CliContext.secrets.delete(key)`. -/
def secretsDelete (st : CliState) (key : String) : CliState × SavedFiles :=
  let st' := { st with secretStorage := mapDelete st.secretStorage key }
  (st', saveState st')

/-- The `HistoryItem` object literal `CliController.saveToHistory`
constructs.  (`id: Date.now().toString()` and `ts: Date.now()` are two
immediately successive clock reads; no claim depends on their difference,
so both are modelled from one `now`.) -/
structure HistoryItem where
  id : String
  ts : Nat
  task : String
  tokensIn : Nat
  tokensOut : Nat
  cacheWrites : Nat
  cacheReads : Nat
  totalCost : Nat
  isFavorited : Bool
deriving DecidableEq

/-- The `HistoryItem` literal of `saveToHistory`, as a function of the
clock value and the task text (the only non-constant inputs it uses). -/
def historyItemOf (now : Nat) (task : String) : HistoryItem :=
  { id := toString now
    ts := now
    task := task
    tokensIn := 0
    tokensOut := 0
    cacheWrites := 0
    cacheReads := 0
    totalCost := 0
    isFavorited := false }

/-- `CliController.saveToHistory(task, response)`: builds the history
item — `{ id: Date.now().toString(), ts: Date.now(), task, tokensIn: 0,
tokensOut: 0, cacheWrites: 0, cacheReads: 0, totalCost: 0, isFavorited:
false }`; note that the `response` parameter is not placed in the item —
unshifts it onto the loaded history and persists `history.slice(0, 100)`. -/
def saveToHistory (now : Nat) (task : String) (response : String)
    (history : List HistoryItem) : List HistoryItem :=
  let _ := response
  let historyItem : HistoryItem := historyItemOf now task
  (historyItem :: history).take 100

/-- The arguments of one `saveToHistory` call (clock value at the call,
task text, accumulated response text). -/
structure HistoryCall where
  now : Nat
  task : String
  response : String

/-- A sequence of successive `saveToHistory` calls threaded through the
persisted history file. -/
def runSaveCalls (calls : List HistoryCall) (h0 : List HistoryItem) : List HistoryItem :=
  calls.foldl (fun h c => saveToHistory c.now c.task c.response h) h0

/-- The accumulation loop of `CliController.executeTask`: both
`"text"` and `"error"` chunks are appended to `response`. -/
def accumulateResponse (chunks : List Chunk) : String :=
  chunks.foldl
    (fun acc c =>
      match c with
      | Chunk.text s => acc ++ s
      | Chunk.error s => acc ++ s)
    ""

/-- The tail of `CliController.executeTask` for a completed turn: the
accumulated response string and the history list persisted by the
`saveToHistory` call. -/
def executeTaskOutcome (now : Nat) (stream : List Chunk) (description : String)
    (history : List HistoryItem) : String × List HistoryItem :=
  let response := accumulateResponse stream
  (response, saveToHistory now description response history)

/-! ### Helper lemmas about the shared decode loop -/

theorem string_data_append (s t : String) : (s ++ t).data = s.data ++ t.data := by
  cases s
  cases t
  rfl

theorem string_data_append3 (a b c : String) :
    (a ++ b ++ c).data = a.data ++ b.data ++ c.data := by
  rw [string_data_append, string_data_append]

theorem splitNl_append (xs ys : List Char) :
    splitNl (xs ++ ys) =
      ((splitNl xs).1 ++ (splitNl ((splitNl xs).2 ++ ys)).1,
       (splitNl ((splitNl xs).2 ++ ys)).2) := by
  induction xs with
  | nil => simp [splitNl]
  | cons c xs ih =>
    rcases hA : splitNl xs with ⟨A1, A2⟩
    rcases hB : splitNl (A2 ++ ys) with ⟨B1, B2⟩
    have ih' : splitNl (xs ++ ys) = (A1 ++ B1, B2) := by
      rw [ih, hA]
      simp [hB]
    by_cases hc : c = '\n'
    · subst hc
      simp [splitNl, ih', hA, hB]
    · cases A1 with
      | nil =>
        cases B1 with
        | nil => simp [splitNl, hc, ih', hA, hB]
        | cons b bs => simp [splitNl, hc, ih', hA, hB]
      | cons a as => simp [splitNl, hc, ih', hA, hB]

theorem splitNl_of_no_newline {s : List Char} (h : '\n' ∉ s) :
    splitNl s = ([], s) := by
  induction s with
  | nil => rfl
  | cons c cs ih =>
    have hc : c ≠ '\n' := fun hc => h (hc ▸ List.mem_cons_self c cs)
    have hcs : '\n' ∉ cs := fun hm => h (List.mem_cons_of_mem c hm)
    simp [splitNl, hc, ih hcs]

theorem splitNl_buf_no_newline (s : List Char) : '\n' ∉ (splitNl s).2 := by
  induction s with
  | nil => simp [splitNl]
  | cons c cs ih =>
    by_cases hc : c = '\n'
    · subst hc; simpa [splitNl] using ih
    · rcases hA : splitNl cs with ⟨A1, A2⟩
      rw [hA] at ih
      cases A1 with
      | nil =>
        simp only [splitNl, if_neg hc, hA]
        intro hm
        rcases List.mem_cons.mp hm with h1 | h2
        · exact hc h1.symm
        · exact ih h2
      | cons a as => simpa [splitNl, hc, hA] using ih

theorem processLines_append (proc : LineProc) (L1 L2 : List (List Char)) :
    processLines proc (L1 ++ L2) =
      if (processLines proc L1).2 then processLines proc L1
      else ((processLines proc L1).1 ++ (processLines proc L2).1,
            (processLines proc L2).2) := by
  induction L1 with
  | nil => simp [processLines]
  | cons l ls ih =>
    by_cases h : (proc l).2
    · simp [processLines, h]
    · simp [processLines, h, ih]
      split
      · simp
      · simp [List.append_assoc]

/-- The chunks of the read loop, single-read form: the loop processes the
complete lines of the whole stream and then handles the end event (unless
a sentinel stopped it first). -/
def endChunks : ReadEnd → List Chunk
  | .done => []
  | .fail m => [Chunk.error ("Error: " ++ m)]

theorem runDecoder_single (proc : LineProc) (buf s : List Char) (e : ReadEnd) :
    runDecoder proc buf [s] e =
      (if (processLines proc (splitNl (buf ++ s)).1).2
       then (processLines proc (splitNl (buf ++ s)).1).1
       else (processLines proc (splitNl (buf ++ s)).1).1 ++ endChunks e) := by
  cases e <;> simp [runDecoder, endChunks]

theorem runDecoder_cons_cons (proc : LineProc) (buf r1 r2 : List Char)
    (rs : List (List Char)) (e : ReadEnd) :
    runDecoder proc buf (r1 :: r2 :: rs) e =
      runDecoder proc buf ((r1 ++ r2) :: rs) e := by
  have hsplit : splitNl (buf ++ (r1 ++ r2)) =
      ((splitNl (buf ++ r1)).1 ++ (splitNl ((splitNl (buf ++ r1)).2 ++ r2)).1,
       (splitNl ((splitNl (buf ++ r1)).2 ++ r2)).2) := by
    rw [← List.append_assoc]
    exact splitNl_append (buf ++ r1) r2
  simp only [runDecoder, hsplit]
  rw [processLines_append]
  by_cases h1 : (processLines proc (splitNl (buf ++ r1)).1).2
  · simp [h1]
  · by_cases h2 :
      (processLines proc (splitNl ((splitNl (buf ++ r1)).2 ++ r2)).1).2
    · simp [runDecoder, h1, h2]
    · simp [runDecoder, h1, h2, List.append_assoc]

/-- The concatenation of all read fragments (the whole decoded stream). -/
def joinReads : List (List Char) → List Char
  | [] => []
  | r :: rs => r ++ joinReads rs

theorem runDecoder_join_cons (proc : LineProc) (buf : List Char) (e : ReadEnd) :
    ∀ (rs : List (List Char)) (r : List Char),
      runDecoder proc buf (r :: rs) e = runDecoder proc buf [r ++ joinReads rs] e := by
  intro rs
  induction rs with
  | nil => intro r; simp [joinReads]
  | cons r2 rs ih =>
    intro r
    rw [runDecoder_cons_cons, ih (r ++ r2), joinReads, List.append_assoc]

theorem runDecoder_join (proc : LineProc) (buf : List Char) (e : ReadEnd)
    (reads : List (List Char)) (hbuf : '\n' ∉ buf) :
    runDecoder proc buf reads e = runDecoder proc buf [joinReads reads] e := by
  cases reads with
  | nil =>
    have hs : splitNl buf = ([], buf) := splitNl_of_no_newline hbuf
    cases e <;> simp [runDecoder, joinReads, hs, processLines]
  | cons r rs => exact runDecoder_join_cons proc buf e rs r

/-- Every chunk in the list is a text chunk. -/
def allTextChunks (cs : List Chunk) : Prop := ∀ c ∈ cs, ∃ s, c = Chunk.text s

theorem anthropicLine_text (parse : String → Option Json) (l : List Char) :
    allTextChunks (anthropicLine parse l).1 := by
  intro c hc
  simp only [anthropicLine] at hc
  split at hc
  · split at hc
    · simp at hc
    · split at hc
      · split at hc
        · rcases List.mem_singleton.mp hc with h
          exact ⟨_, h⟩
        · simp at hc
      · simp at hc
  · simp at hc

theorem openAILine_text (parse : String → Option Json) (l : List Char) :
    allTextChunks (openAILine parse l).1 := by
  intro c hc
  simp only [openAILine] at hc
  split at hc
  · split at hc
    · simp at hc
    · split at hc
      · split at hc
        · rcases List.mem_singleton.mp hc with h
          exact ⟨_, h⟩
        · simp at hc
      · simp at hc
  · simp at hc

theorem ollamaLine_text (parse : String → Option Json) (l : List Char) :
    allTextChunks (ollamaLine parse l).1 := by
  intro c hc
  simp only [ollamaLine] at hc
  split at hc
  · split at hc
    · split at hc
      · rcases List.mem_singleton.mp hc with h
        exact ⟨_, h⟩
      · simp at hc
    · simp at hc
  · simp at hc

theorem processLines_text (proc : LineProc)
    (hproc : ∀ l, allTextChunks (proc l).1) (L : List (List Char)) :
    allTextChunks (processLines proc L).1 := by
  induction L with
  | nil => intro c hc; simp [processLines] at hc
  | cons l ls ih =>
    intro c hc
    by_cases h : (proc l).2
    · simp [processLines, h] at hc
      exact hproc l c hc
    · simp [processLines, h] at hc
      rcases hc with hc | hc
      · exact hproc l c hc
      · exact ih c hc

theorem processLines_not_stopped (proc : LineProc) (L : List (List Char))
    (h : ∀ l ∈ L, (proc l).2 = false) :
    (processLines proc L).2 = false := by
  induction L with
  | nil => simp [processLines]
  | cons l ls ih =>
    have hl : (proc l).2 = false := h l (List.mem_cons_self l ls)
    simp [processLines, hl]
    exact ih (fun x hx => h x (List.mem_cons_of_mem l hx))

theorem processLines_stop_at (proc : LineProc) (L1 : List (List Char))
    (d : List Char) (L2 : List (List Char))
    (h1 : ∀ l ∈ L1, (proc l).2 = false) (hd : (proc d).2 = true) :
    processLines proc (L1 ++ d :: L2) =
      ((processLines proc L1).1 ++ (proc d).1, true) := by
  rw [processLines_append, processLines_not_stopped proc L1 h1]
  simp [processLines, hd]

theorem processLines_middle_noop (proc : LineProc) (bad : List Char)
    (hbad : proc bad = ([], false)) (L1 L2 : List (List Char)) :
    processLines proc (L1 ++ bad :: L2) = processLines proc (L1 ++ L2) := by
  rw [processLines_append, processLines_append]
  have : processLines proc (bad :: L2) = processLines proc L2 := by
    simp [processLines, hbad]
  rw [this]

/-! ### Helper lemmas for the history cap -/

theorem take_append_take {α : Type} (n : Nat) (A B : List α) :
    (A ++ B.take n).take n = (A ++ B).take n := by
  rw [List.take_append_eq_append_take, List.take_append_eq_append_take, List.take_take,
    Nat.min_eq_left (Nat.sub_le n A.length)]

theorem runSaveCalls_eq (calls : List HistoryCall) :
    ∀ h0 : List HistoryItem, h0.length ≤ 100 →
      runSaveCalls calls h0 =
        ((calls.map (fun c => historyItemOf c.now c.task)).reverse ++ h0).take 100 := by
  induction calls with
  | nil =>
    intro h0 h
    simp [runSaveCalls, List.take_of_length_le h]
  | cons c cs ih =>
    intro h0 h
    have hstep : runSaveCalls (c :: cs) h0 =
        runSaveCalls cs (saveToHistory c.now c.task c.response h0) := rfl
    have hlen : (saveToHistory c.now c.task c.response h0).length ≤ 100 := by
      simp only [saveToHistory]
      exact List.length_take_le 100 _
    rw [hstep, ih _ hlen]
    simp only [saveToHistory]
    rw [take_append_take]
    simp [List.append_assoc]

/-! ### Claims C5, C7, C8, C9, C10 -/

/-- C5: for every starting history list and every sequence of 101
`saveToHistory` calls, the persisted history afterwards is exactly the
100 most recent records most-recent-first (the first call's record — the
oldest — is evicted); each single call unshifts the new record and
truncates to the first 100 entries before persisting. -/
theorem claim_C5_history_cap (h0 : List HistoryItem) (calls : List HistoryCall)
    (hlen : calls.length = 101) :
    runSaveCalls calls h0 =
      ((calls.drop 1).map (fun c => historyItemOf c.now c.task)).reverse
    ∧ (runSaveCalls calls h0).length = 100
    ∧ (∀ now task response h,
        saveToHistory now task response h = (historyItemOf now task :: h).take 100) := by
  cases calls with
  | nil => simp at hlen
  | cons c cs =>
    have hcs : cs.length = 100 := by
      simpa using hlen
    have hstep : runSaveCalls (c :: cs) h0 =
        runSaveCalls cs (saveToHistory c.now c.task c.response h0) := rfl
    have hlen0 : (saveToHistory c.now c.task c.response h0).length ≤ 100 := by
      simp only [saveToHistory]
      exact List.length_take_le 100 _
    have hrev : ((cs.map (fun c => historyItemOf c.now c.task)).reverse).length = 100 := by
      simp [hcs]
    have hmain : runSaveCalls (c :: cs) h0 =
        (cs.map (fun c => historyItemOf c.now c.task)).reverse := by
      rw [hstep, runSaveCalls_eq cs _ hlen0, ← hrev, List.take_left]
    refine ⟨by simpa using hmain, ?_, fun now task response h => rfl⟩
    rw [hmain, hrev]

/-- C5 witness: 101 concrete calls starting from an empty history. -/
theorem claim_C5_history_cap_witness :
    runSaveCalls ((List.range 101).map
      (fun n => { now := n, task := "t", response := "r" })) [] =
      ((((List.range 101).map
          (fun n => ({ now := n, task := "t", response := "r" } : HistoryCall))).drop 1).map
        (fun c => historyItemOf c.now c.task)).reverse :=
  (claim_C5_history_cap []
    ((List.range 101).map (fun n => { now := n, task := "t", response := "r" }))
    (by simp)).1

/-- C7 counterexample: the persisted `HistoryItem` does not contain the
accumulated response text — two turns differing only in their response
produce identical history records, so the claim that the record contains
the response text is false. -/
theorem claim_C7_counterexample :
    saveToHistory 5 "list files" "response A" []
      = saveToHistory 5 "list files" "response B" []
    ∧ ("response A" : String) ≠ "response B" :=
  ⟨rfl, by decide⟩

/-- C7 (amended): for every completed turn, `executeTask` accumulates the
concatenation of all Text and Error chunk payloads as the response and
persists a `HistoryRecord` carrying the task text, a timestamp-derived
identifier and timestamp, usage counters all zero and favorite flag
false — but not the response text, which `saveToHistory` receives and
discards. -/
theorem claim_C7_record_fields (now : Nat) (stream : List Chunk)
    (description : String) (history : List HistoryItem) :
    executeTaskOutcome now stream description history =
      (accumulateResponse stream, (historyItemOf now description :: history).take 100)
    ∧ historyItemOf now description =
      { id := toString now
        ts := now
        task := description
        tokensIn := 0
        tokensOut := 0
        cacheWrites := 0
        cacheReads := 0
        totalCost := 0
        isFavorited := false } :=
  ⟨rfl, rfl⟩

/-- C8: a missing (`none`) or unparsable state, secrets, history or
provider-config file makes the corresponding read return the
empty/default value (empty maps, empty array, `null`); the reads are
total functions, so no error reaches the caller. -/
theorem claim_C8_degrade_to_defaults (parse : String → Option Json)
    (content : String) (hc : parse content = none) :
    loadState parse ⟨none, none, none⟩ = ⟨[], [], []⟩
    ∧ loadState parse ⟨some content, some content, some content⟩ = ⟨[], [], []⟩
    ∧ getTaskHistory parse none = Json.arr []
    ∧ getTaskHistory parse (some content) = Json.arr []
    ∧ getApiConfiguration parse none = none
    ∧ getApiConfiguration parse (some content) = none := by
  refine ⟨rfl, ?_, rfl, ?_, rfl, ?_⟩
  · simp [loadState, loadStateFrom, hc]
  · simp [getTaskHistory, hc]
  · simp [getApiConfiguration, hc]

/-- C8 witness: a concrete truncated file under a parse that rejects it. -/
theorem claim_C8_degrade_to_defaults_witness :
    loadState (fun _ => none) ⟨some "not valid json", some "not valid json", some "not valid json"⟩
      = ⟨[], [], []⟩
    ∧ getTaskHistory (fun _ => none) (some "not valid json") = Json.arr []
    ∧ getApiConfiguration (fun _ => none) (some "not valid json") = none :=
  ⟨(claim_C8_degrade_to_defaults (fun _ => none) "not valid json" rfl).2.1,
   (claim_C8_degrade_to_defaults (fun _ => none) "not valid json" rfl).2.2.2.1,
   (claim_C8_degrade_to_defaults (fun _ => none) "not valid json" rfl).2.2.2.2.2⟩

/-- C9: for a configured provider identifier outside the known set
(anthropic, openai-native, siliconflow, ollama), `buildSimpleApiHandler`
selects the mock handler, whose `createMessage` yields exactly one Text
chunk (not an Error chunk) whose message contains the unknown provider's
identifier, and the sequence then ends. -/
theorem claim_C9_unknown_provider_mock (config : ApiConfiguration)
    (p sys user : String) (hp : config.apiProvider = some p)
    (hn : p ∉ (["anthropic", "openai-native", "siliconflow", "ollama"] : List String)) :
    buildSimpleApiHandler config = HandlerKind.mock
    ∧ mockCreateMessage config sys user = [Chunk.text (mockResponseText (some p) user)]
    ∧ (∃ l r, (mockResponseText (some p) user).data = l ++ p.data ++ r) := by
  simp only [List.mem_cons, List.not_mem_nil, or_false, not_or] at hn
  obtain ⟨h1, h2, h3, h4⟩ := hn
  refine ⟨?_, ?_, ?_⟩
  · simp [buildSimpleApiHandler, hp, h1, h2, h3, h4]
  · simp [mockCreateMessage, hp]
  · rw [mockResponseText]
    simp only [jsInterpOpt]
    exact ⟨_, _, string_data_append3 _ _ _⟩

/-- C9 witness: the unknown provider `"gemini"`. -/
theorem claim_C9_unknown_provider_mock_witness :
    buildSimpleApiHandler { apiProvider := some "gemini" } = HandlerKind.mock
    ∧ mockCreateMessage { apiProvider := some "gemini" } "sys" "hello"
        = [Chunk.text (mockResponseText (some "gemini") "hello")]
    ∧ (∃ l r, (mockResponseText (some "gemini") "hello").data
        = l ++ ("gemini" : String).data ++ r) :=
  claim_C9_unknown_provider_mock { apiProvider := some "gemini" } "gemini" "sys" "hello"
    rfl (by decide)

/-- C10: every mutation through any single namespace — global update,
workspace update, secret store, secret delete — rewrites all three
persisted files from the current in-memory maps, so the two unmutated
namespaces' on-disk contents are replaced with their in-memory images. -/
theorem claim_C10_mutation_rewrites_all_files (st : CliState) (key : String)
    (value : Json) (secretValue : String) :
    (globalStateUpdate st key value).2 =
      { globalStateFile := mapSet st.globalState key value
        workspaceStateFile := st.workspaceState
        secretsFile := st.secretStorage }
    ∧ (workspaceStateUpdate st key value).2 =
      { globalStateFile := st.globalState
        workspaceStateFile := mapSet st.workspaceState key value
        secretsFile := st.secretStorage }
    ∧ (secretsStore st key secretValue).2 =
      { globalStateFile := st.globalState
        workspaceStateFile := st.workspaceState
        secretsFile := mapSet st.secretStorage key (Json.str secretValue) }
    ∧ (secretsDelete st key).2 =
      { globalStateFile := st.globalState
        workspaceStateFile := st.workspaceState
        secretsFile := mapDelete st.secretStorage key } :=
  ⟨rfl, rfl, rfl, rfl⟩

/-! ### Decoder claim helper lemmas -/

theorem allTextChunks_map {cs : List Chunk} (h : allTextChunks cs) :
    ∃ ss : List String, cs = ss.map Chunk.text := by
  induction cs with
  | nil => exact ⟨[], rfl⟩
  | cons c cs ih =>
    obtain ⟨s, hs⟩ := h c (List.mem_cons_self c cs)
    obtain ⟨ss, hss⟩ := ih (fun x hx => h x (List.mem_cons_of_mem c hx))
    exact ⟨s :: ss, by rw [hs, hss]; rfl⟩

theorem handlerRun_streamOk (proc : LineProc) (reads : List (List Char)) (e : ReadEnd) :
    handlerRun proc (streamOk reads e) = runDecoder proc [] reads e := rfl

theorem handlerRun_join (proc : LineProc) (reads : List (List Char)) (e : ReadEnd) :
    handlerRun proc (streamOk reads e) = handlerRun proc (streamOk [joinReads reads] e) :=
  runDecoder_join proc [] e reads (by simp)

theorem handlerRun_lines_only (proc : LineProc) (s s' : List Char) (e : ReadEnd)
    (h : (splitNl s).1 = (splitNl s').1) :
    handlerRun proc (streamOk [s] e) = handlerRun proc (streamOk [s'] e) := by
  rw [handlerRun_streamOk, handlerRun_streamOk, runDecoder_single, runDecoder_single]
  simp only [List.nil_append]
  rw [h]

theorem handlerRun_fail_shape (proc : LineProc)
    (hproc : ∀ l, allTextChunks (proc l).1) (reads : List (List Char)) (m : String)
    (hstop : (processLines proc (splitNl (joinReads reads)).1).2 = false) :
    ∃ ts : List String,
      handlerRun proc (streamOk reads (.fail m))
        = ts.map Chunk.text ++ [Chunk.error ("Error: " ++ m)] := by
  rw [handlerRun_streamOk, runDecoder_join proc [] (.fail m) reads (by simp),
    runDecoder_single]
  simp only [List.nil_append]
  rw [hstop]
  obtain ⟨ts, hts⟩ :=
    allTextChunks_map (processLines_text proc hproc (splitNl (joinReads reads)).1)
  exact ⟨ts, by rw [hts]; simp [endChunks]⟩

theorem runDecoder_stop_at (proc : LineProc) (s : List Char)
    (L1 : List (List Char)) (d : List Char) (L2 : List (List Char)) (e : ReadEnd)
    (hs : (splitNl s).1 = L1 ++ d :: L2)
    (h1 : ∀ l ∈ L1, (proc l).2 = false)
    (hd : (proc d).2 = true) :
    runDecoder proc [] [s] e = (processLines proc L1).1 ++ (proc d).1 := by
  rw [runDecoder_single]
  simp only [List.nil_append]
  rw [hs, processLines_stop_at proc L1 d L2 h1 hd]
  simp

theorem anthropicLine_done (parse : String → Option Json) :
    anthropicLine parse ("data: [DONE]".toList) = ([], true) := rfl

theorem openAILine_done (parse : String → Option Json) :
    openAILine parse ("data: [DONE]".toList) = ([], true) := rfl

theorem sseLine_malformed (parse : String → Option Json) (d : List Char)
    (hdone : d ≠ "[DONE]".toList)
    (hbad : parse (String.mk d) = none ∨
      ∃ j, parse (String.mk d) = some j ∧ anthropicDelta j = none) :
    anthropicLine parse ("data: ".toList ++ d) = ([], false) := by
  have hpre : "data: ".toList.isPrefixOf ("data: ".toList ++ d) = true := by
    rw [ List.isPrefixOf_iff_prefix]
    exact List.prefix_append _ d
  have hdrop : ("data: ".toList ++ d).drop 6 = d := by
    have h6 : (6 : Nat) = "data: ".toList.length := rfl
    rw [h6, List.drop_left]
  simp only [anthropicLine, hpre, if_true, hdrop, if_neg hdone]
  rcases hbad with hnone | ⟨j, hj, hdelta⟩
  · rw [hnone]
  · rw [hj]
    simp [hdelta]

theorem openAILine_malformed (parse : String → Option Json) (d : List Char)
    (hdone : d ≠ "[DONE]".toList)
    (hbad : parse (String.mk d) = none ∨
      ∃ j, parse (String.mk d) = some j ∧ openAIDelta j = none) :
    openAILine parse ("data: ".toList ++ d) = ([], false) := by
  have hpre : "data: ".toList.isPrefixOf ("data: ".toList ++ d) = true := by
    rw [ List.isPrefixOf_iff_prefix]
    exact List.prefix_append _ d
  have hdrop : ("data: ".toList ++ d).drop 6 = d := by
    have h6 : (6 : Nat) = "data: ".toList.length := rfl
    rw [h6, List.drop_left]
  simp only [openAILine, hpre, if_true, hdrop, if_neg hdone]
  rcases hbad with hnone | ⟨j, hj, hdelta⟩
  · rw [hnone]
  · rw [hj]
    simp [hdelta]

theorem ollamaLine_malformed (parse : String → Option Json) (bad : List Char)
    (hbad : parse (String.mk bad) = none ∨
      ∃ j, parse (String.mk bad) = some j ∧ ollamaContent j = none ∧ ollamaDone j = false) :
    ollamaLine parse bad = ([], false) := by
  by_cases ht : jsTrim bad = []
  · simp [ollamaLine, ht]
  · rcases hbad with hnone | ⟨j, hj, hcontent, hdone⟩
    · simp [ollamaLine, ht, hnone]
    · simp [ollamaLine, ht, hj, hcontent, hdone]

theorem handlerRun_middle_noop (proc : LineProc) (s s' bad : List Char)
    (L1 L2 : List (List Char)) (e : ReadEnd)
    (hs : (splitNl s).1 = L1 ++ bad :: L2)
    (hs' : (splitNl s').1 = L1 ++ L2)
    (hbad : proc bad = ([], false)) :
    handlerRun proc (streamOk [s] e) = handlerRun proc (streamOk [s'] e) := by
  rw [handlerRun_streamOk, handlerRun_streamOk, runDecoder_single, runDecoder_single]
  simp only [List.nil_append]
  rw [hs, hs', processLines_middle_noop proc bad hbad L1 L2]

/-! ### Claims C1, C2, C3, C4, C6 -/

/-- C1: decoding is split-invariant — for every provider handler, every
read-fragmentation of the response stream produces the same chunk
sequence as delivering the whole stream in one read (hence the same
concatenated Text payload); moreover the output of a single read depends
only on its complete lines, so a trailing fragment after the last newline
is never parsed or emitted (it is retained in the buffer). -/
theorem claim_C1_split_invariance (parse : String → Option Json)
    (reads : List (List Char)) (e : ReadEnd) :
    (anthropicCreateMessage parse (streamOk reads e)
      = anthropicCreateMessage parse (streamOk [joinReads reads] e))
    ∧ (openAICreateMessage parse (streamOk reads e)
      = openAICreateMessage parse (streamOk [joinReads reads] e))
    ∧ (siliconFlowCreateMessage parse (streamOk reads e)
      = siliconFlowCreateMessage parse (streamOk [joinReads reads] e))
    ∧ (ollamaCreateMessage parse (streamOk reads e)
      = ollamaCreateMessage parse (streamOk [joinReads reads] e))
    ∧ (∀ s s', (splitNl s).1 = (splitNl s').1 →
        anthropicCreateMessage parse (streamOk [s] e)
          = anthropicCreateMessage parse (streamOk [s'] e))
    ∧ (∀ s s', (splitNl s).1 = (splitNl s').1 →
        ollamaCreateMessage parse (streamOk [s] e)
          = ollamaCreateMessage parse (streamOk [s'] e)) :=
  ⟨handlerRun_join (anthropicLine parse) reads e,
   handlerRun_join (openAILine parse) reads e,
   handlerRun_join (openAILine parse) reads e,
   handlerRun_join (ollamaLine parse) reads e,
   fun s s' h => handlerRun_lines_only (anthropicLine parse) s s' e h,
   fun s s' h => handlerRun_lines_only (ollamaLine parse) s s' e h⟩

/-- C1 witness: a two-fragment split against the joined single read, and
two streams with equal complete lines but different trailing fragments. -/
theorem claim_C1_split_invariance_witness :
    (anthropicCreateMessage (fun _ => none)
        (streamOk ["da".toList, "ta: x\nrest".toList] .done)
      = anthropicCreateMessage (fun _ => none)
        (streamOk [joinReads ["da".toList, "ta: x\nrest".toList]] .done))
    ∧ (anthropicCreateMessage (fun _ => none) (streamOk ["abc".toList] .done)
      = anthropicCreateMessage (fun _ => none) (streamOk ["xyzw".toList] .done)) :=
  ⟨(claim_C1_split_invariance (fun _ => none) ["da".toList, "ta: x\nrest".toList] .done).1,
   (claim_C1_split_invariance (fun _ => none) [] .done).2.2.2.2.1
      "abc".toList "xyzw".toList (by decide)⟩

/-- C2: a non-success HTTP status yields exactly one Error chunk (and no
Text chunk) describing the status, for each of the four provider
handlers; a rejected `fetch` likewise yields exactly one Error chunk; and
a mid-stream read rejection (reached before any end sentinel) makes the
sequence end with exactly one Error chunk after only Text chunks.  The
fault is consumed inside the generator — the model is a total function,
so nothing propagates to the consumer. -/
theorem claim_C2_failure_single_error (parse : String → Option Json) :
    (∀ resp : HttpResponse, resp.ok = false →
      anthropicCreateMessage parse (.ok resp) = [statusErrorChunk resp.status resp.statusText]
      ∧ openAICreateMessage parse (.ok resp) = [statusErrorChunk resp.status resp.statusText]
      ∧ siliconFlowCreateMessage parse (.ok resp) = [statusErrorChunk resp.status resp.statusText]
      ∧ ollamaCreateMessage parse (.ok resp) = [statusErrorChunk resp.status resp.statusText])
    ∧ (∀ m : String,
      anthropicCreateMessage parse (.error m) = [Chunk.error ("Error: " ++ m)]
      ∧ openAICreateMessage parse (.error m) = [Chunk.error ("Error: " ++ m)]
      ∧ siliconFlowCreateMessage parse (.error m) = [Chunk.error ("Error: " ++ m)]
      ∧ ollamaCreateMessage parse (.error m) = [Chunk.error ("Error: " ++ m)])
    ∧ (∀ (reads : List (List Char)) (m : String),
      ((processLines (anthropicLine parse) (splitNl (joinReads reads)).1).2 = false →
        ∃ ts : List String,
          anthropicCreateMessage parse (streamOk reads (.fail m))
            = ts.map Chunk.text ++ [Chunk.error ("Error: " ++ m)])
      ∧ ((processLines (openAILine parse) (splitNl (joinReads reads)).1).2 = false →
        ∃ ts : List String,
          openAICreateMessage parse (streamOk reads (.fail m))
            = ts.map Chunk.text ++ [Chunk.error ("Error: " ++ m)])
      ∧ ((processLines (openAILine parse) (splitNl (joinReads reads)).1).2 = false →
        ∃ ts : List String,
          siliconFlowCreateMessage parse (streamOk reads (.fail m))
            = ts.map Chunk.text ++ [Chunk.error ("Error: " ++ m)])
      ∧ ((processLines (ollamaLine parse) (splitNl (joinReads reads)).1).2 = false →
        ∃ ts : List String,
          ollamaCreateMessage parse (streamOk reads (.fail m))
            = ts.map Chunk.text ++ [Chunk.error ("Error: " ++ m)])) := by
  refine ⟨?_, ?_, ?_⟩
  · intro resp h
    refine ⟨?_, ?_, ?_, ?_⟩ <;>
      simp [anthropicCreateMessage, openAICreateMessage, siliconFlowCreateMessage,
        ollamaCreateMessage, handlerRun, h]
  · intro m
    exact ⟨rfl, rfl, rfl, rfl⟩
  · intro reads m
    exact ⟨fun h => handlerRun_fail_shape _ (anthropicLine_text parse) reads m h,
      fun h => handlerRun_fail_shape _ (openAILine_text parse) reads m h,
      fun h => handlerRun_fail_shape _ (openAILine_text parse) reads m h,
      fun h => handlerRun_fail_shape _ (ollamaLine_text parse) reads m h⟩

/-- C2 witness: a 500 status, a rejected fetch, and a read rejection on an
empty stream. -/
theorem claim_C2_failure_single_error_witness :
    anthropicCreateMessage (fun _ => none)
      (.ok { ok := false, status := 500, statusText := "Internal Server Error", body := none })
      = [statusErrorChunk 500 "Internal Server Error"]
    ∧ anthropicCreateMessage (fun _ => none) (.error "TypeError: fetch failed")
      = [Chunk.error ("Error: " ++ "TypeError: fetch failed")]
    ∧ (∃ ts : List String,
        anthropicCreateMessage (fun _ => none) (streamOk [] (.fail "read reset"))
          = ts.map Chunk.text ++ [Chunk.error ("Error: " ++ "read reset")]) :=
  ⟨((claim_C2_failure_single_error (fun _ => none)).1
      { ok := false, status := 500, statusText := "Internal Server Error", body := none } rfl).1,
   ((claim_C2_failure_single_error (fun _ => none)).2.1 "TypeError: fetch failed").1,
   (((claim_C2_failure_single_error (fun _ => none)).2.2 [] "read reset").1 rfl)⟩

/-- C3: once a line carrying the end sentinel is decoded — the SSE
`data: [DONE]` line for the Anthropic/OpenAI-style handlers, a frame with
a truthy `done` field for the Ollama handler — the sequence terminates:
the output is exactly the chunks of the lines before the sentinel (plus,
for Ollama, the sentinel frame's own content chunk), and nothing from the
later lines, the retained buffer, or the stream's end event is emitted. -/
theorem claim_C3_sentinel_terminates (parse : String → Option Json) :
    (∀ (s : List Char) (L1 L2 : List (List Char)) (e : ReadEnd),
      (splitNl s).1 = L1 ++ "data: [DONE]".toList :: L2 →
      (∀ l ∈ L1, (anthropicLine parse l).2 = false) →
      anthropicCreateMessage parse (streamOk [s] e)
        = (processLines (anthropicLine parse) L1).1)
    ∧ (∀ (s : List Char) (L1 L2 : List (List Char)) (e : ReadEnd),
      (splitNl s).1 = L1 ++ "data: [DONE]".toList :: L2 →
      (∀ l ∈ L1, (openAILine parse l).2 = false) →
      openAICreateMessage parse (streamOk [s] e)
        = (processLines (openAILine parse) L1).1)
    ∧ (∀ (s : List Char) (L1 : List (List Char)) (d : List Char)
        (L2 : List (List Char)) (e : ReadEnd),
      (splitNl s).1 = L1 ++ d :: L2 →
      (∀ l ∈ L1, (ollamaLine parse l).2 = false) →
      (ollamaLine parse d).2 = true →
      ollamaCreateMessage parse (streamOk [s] e)
        = (processLines (ollamaLine parse) L1).1 ++ (ollamaLine parse d).1) := by
  refine ⟨?_, ?_, ?_⟩
  · intro s L1 L2 e hs h1
    have h := runDecoder_stop_at (anthropicLine parse) s L1 _ L2 e hs h1
      (by rw [anthropicLine_done])
    rw [anthropicLine_done] at h
    simpa using h
  · intro s L1 L2 e hs h1
    have h := runDecoder_stop_at (openAILine parse) s L1 _ L2 e hs h1
      (by rw [openAILine_done])
    rw [openAILine_done] at h
    simpa using h
  · intro s L1 d L2 e hs h1 hd
    exact runDecoder_stop_at (ollamaLine parse) s L1 d L2 e hs h1 hd

/-- C3 witness: a `[DONE]` line followed by a junk line and a pending
fragment, on a stream whose read then fails; and an Ollama done-frame
that still carries content. -/
theorem claim_C3_sentinel_terminates_witness :
    anthropicCreateMessage (fun _ => none)
      (streamOk ["data: [DONE]\ndata: junk\npending".toList] (.fail "late reset")) = []
    ∧ ollamaCreateMessage
        (fun t => if t = "lastframe" then
            some (Json.obj [("message", Json.obj [("content", Json.str "lo")]),
                            ("done", Json.bool true)])
          else none)
        (streamOk ["lastframe\njunk after".toList] (.fail "late reset"))
        = [Chunk.text "lo"] := by
  constructor
  · have h := (claim_C3_sentinel_terminates (fun _ => none)).1
      "data: [DONE]\ndata: junk\npending".toList [] ["data: junk".toList]
      (.fail "late reset") (by decide) (by simp)
    simpa [processLines] using h
  · have h := (claim_C3_sentinel_terminates
      (fun t => if t = "lastframe" then
          some (Json.obj [("message", Json.obj [("content", Json.str "lo")]),
                          ("done", Json.bool true)])
        else none)).2.2
      "lastframe\njunk after".toList [] "lastframe".toList []
      (.fail "late reset") (by decide) (by simp) (by decide)
    rw [h]
    decide

/-- C4: for every decoder, a frame whose payload fails to parse as JSON,
or parses but lacks (a truthy) value at the provider's delta field path —
`delta.text` on a `content_block_delta` event for Anthropic,
`choices[0].delta.content` for the OpenAI-style handlers (OpenAI and
SiliconFlow share the loop body), `message.content` for Ollama (whose
frame must also not carry a truthy `done` flag, or it would be the end
sentinel rather than a skipped frame) — is skipped: removing it from
between the surrounding lines leaves the decoded output, including the
ordering of the surrounding valid Text chunks, unchanged, with no Error
chunk and no abort. -/
theorem claim_C4_malformed_frame_skipped (parse : String → Option Json) :
    (∀ (s s' d : List Char) (L1 L2 : List (List Char)) (e : ReadEnd),
      (splitNl s).1 = L1 ++ ("data: ".toList ++ d) :: L2 →
      (splitNl s').1 = L1 ++ L2 →
      d ≠ "[DONE]".toList →
      (parse (String.mk d) = none ∨
        ∃ j, parse (String.mk d) = some j ∧ anthropicDelta j = none) →
      anthropicCreateMessage parse (streamOk [s] e)
        = anthropicCreateMessage parse (streamOk [s'] e))
    ∧ (∀ (s s' d : List Char) (L1 L2 : List (List Char)) (e : ReadEnd),
      (splitNl s).1 = L1 ++ ("data: ".toList ++ d) :: L2 →
      (splitNl s').1 = L1 ++ L2 →
      d ≠ "[DONE]".toList →
      (parse (String.mk d) = none ∨
        ∃ j, parse (String.mk d) = some j ∧ openAIDelta j = none) →
      openAICreateMessage parse (streamOk [s] e)
        = openAICreateMessage parse (streamOk [s'] e)
      ∧ siliconFlowCreateMessage parse (streamOk [s] e)
        = siliconFlowCreateMessage parse (streamOk [s'] e))
    ∧ (∀ (s s' bad : List Char) (L1 L2 : List (List Char)) (e : ReadEnd),
      (splitNl s).1 = L1 ++ bad :: L2 →
      (splitNl s').1 = L1 ++ L2 →
      (parse (String.mk bad) = none ∨
        ∃ j, parse (String.mk bad) = some j
          ∧ ollamaContent j = none ∧ ollamaDone j = false) →
      ollamaCreateMessage parse (streamOk [s] e)
        = ollamaCreateMessage parse (streamOk [s'] e)) := by
  refine ⟨?_, ?_, ?_⟩
  · intro s s' d L1 L2 e hs hs' hdone hbad
    exact handlerRun_middle_noop (anthropicLine parse) s s' _ L1 L2 e hs hs'
      (sseLine_malformed parse d hdone hbad)
  · intro s s' d L1 L2 e hs hs' hdone hbad
    exact ⟨handlerRun_middle_noop (openAILine parse) s s' _ L1 L2 e hs hs'
        (openAILine_malformed parse d hdone hbad),
      handlerRun_middle_noop (openAILine parse) s s' _ L1 L2 e hs hs'
        (openAILine_malformed parse d hdone hbad)⟩
  · intro s s' bad L1 L2 e hs hs' hbad
    exact handlerRun_middle_noop (ollamaLine parse) s s' bad L1 L2 e hs hs'
      (ollamaLine_malformed parse bad hbad)

/-- C4 witness: for each decoder, a garbage frame between two well-formed
frames is dropped and the surrounding Text chunks keep their order. -/
theorem claim_C4_malformed_frame_skipped_witness :
    (anthropicCreateMessage
      (fun t => if t = "okone" then
          some (Json.obj [("type", Json.str "content_block_delta"),
                          ("delta", Json.obj [("text", Json.str "A")])])
        else if t = "oktwo" then
          some (Json.obj [("type", Json.str "content_block_delta"),
                          ("delta", Json.obj [("text", Json.str "B")])])
        else none)
      (streamOk ["data: okone\ndata: garbage\ndata: oktwo\n".toList] .done)
      = anthropicCreateMessage
        (fun t => if t = "okone" then
            some (Json.obj [("type", Json.str "content_block_delta"),
                            ("delta", Json.obj [("text", Json.str "A")])])
          else if t = "oktwo" then
            some (Json.obj [("type", Json.str "content_block_delta"),
                            ("delta", Json.obj [("text", Json.str "B")])])
          else none)
        (streamOk ["data: okone\ndata: oktwo\n".toList] .done))
    ∧ (openAICreateMessage
      (fun t => if t = "okone" then
          some (Json.obj [("choices",
            Json.arr [Json.obj [("delta", Json.obj [("content", Json.str "A")])]])])
        else if t = "oktwo" then
          some (Json.obj [("choices",
            Json.arr [Json.obj [("delta", Json.obj [("content", Json.str "B")])]])])
        else none)
      (streamOk ["data: okone\ndata: garbage\ndata: oktwo\n".toList] .done)
      = openAICreateMessage
        (fun t => if t = "okone" then
            some (Json.obj [("choices",
              Json.arr [Json.obj [("delta", Json.obj [("content", Json.str "A")])]])])
          else if t = "oktwo" then
            some (Json.obj [("choices",
              Json.arr [Json.obj [("delta", Json.obj [("content", Json.str "B")])]])])
          else none)
        (streamOk ["data: okone\ndata: oktwo\n".toList] .done))
    ∧ (ollamaCreateMessage
      (fun t => if t = "frameone" then
          some (Json.obj [("message", Json.obj [("content", Json.str "A")])])
        else if t = "frametwo" then
          some (Json.obj [("message", Json.obj [("content", Json.str "B")])])
        else none)
      (streamOk ["frameone\ngarbage\nframetwo\n".toList] .done)
      = ollamaCreateMessage
        (fun t => if t = "frameone" then
            some (Json.obj [("message", Json.obj [("content", Json.str "A")])])
          else if t = "frametwo" then
            some (Json.obj [("message", Json.obj [("content", Json.str "B")])])
          else none)
        (streamOk ["frameone\nframetwo\n".toList] .done)) :=
  ⟨(claim_C4_malformed_frame_skipped
      (fun t => if t = "okone" then
          some (Json.obj [("type", Json.str "content_block_delta"),
                          ("delta", Json.obj [("text", Json.str "A")])])
        else if t = "oktwo" then
          some (Json.obj [("type", Json.str "content_block_delta"),
                          ("delta", Json.obj [("text", Json.str "B")])])
        else none)).1
    "data: okone\ndata: garbage\ndata: oktwo\n".toList
    "data: okone\ndata: oktwo\n".toList
    "garbage".toList
    ["data: okone".toList] ["data: oktwo".toList] .done
    (by decide) (by decide) (by decide) (Or.inl rfl),
   ((claim_C4_malformed_frame_skipped
      (fun t => if t = "okone" then
          some (Json.obj [("choices",
            Json.arr [Json.obj [("delta", Json.obj [("content", Json.str "A")])]])])
        else if t = "oktwo" then
          some (Json.obj [("choices",
            Json.arr [Json.obj [("delta", Json.obj [("content", Json.str "B")])]])])
        else none)).2.1
    "data: okone\ndata: garbage\ndata: oktwo\n".toList
    "data: okone\ndata: oktwo\n".toList
    "garbage".toList
    ["data: okone".toList] ["data: oktwo".toList] .done
    (by decide) (by decide) (by decide) (Or.inl rfl)).1,
   (claim_C4_malformed_frame_skipped
      (fun t => if t = "frameone" then
          some (Json.obj [("message", Json.obj [("content", Json.str "A")])])
        else if t = "frametwo" then
          some (Json.obj [("message", Json.obj [("content", Json.str "B")])])
        else none)).2.2
    "frameone\ngarbage\nframetwo\n".toList
    "frameone\nframetwo\n".toList
    "garbage".toList
    ["frameone".toList] ["frametwo".toList] .done
    (by decide) (by decide) (Or.inl rfl)⟩

/-- C6 counterexample: a well-formed `content_block_delta` frame whose
`delta.text` is the empty string — a string value — yields no chunk at
all (JS truthiness drops it), not the one verbatim Text chunk the claim
requires. -/
theorem claim_C6_counterexample :
    anthropicCreateMessage
      (fun t => if t = "emptydelta" then
          some (Json.obj [("type", Json.str "content_block_delta"),
                          ("delta", Json.obj [("text", Json.str "")])])
        else none)
      (streamOk ["data: emptydelta\n".toList] .done) = []
    ∧ ([] : List Chunk) ≠ [Chunk.text ""] :=
  ⟨by decide, by decide⟩

/-- C6 (amended): for every decoder, a well-formed frame carrying a
*non-empty* string at the provider's delta field path — `delta.text` on a
`content_block_delta` event for Anthropic, `choices[0].delta.content` for
the OpenAI-style handlers, `message.content` for Ollama (where the frame's
`done` flag is passed through unchanged) — yields exactly one Text chunk
whose payload is that string verbatim; a frame whose delta is the *empty*
string is dropped by the JS truthiness check and yields no chunk; and
consecutive frames' chunks are emitted in frame arrival order. -/
theorem claim_C6_text_delta_verbatim (parse : String → Option Json) :
    (∀ (line d : List Char) (j : Json) (s : String),
      line = "data: ".toList ++ d →
      d ≠ "[DONE]".toList →
      parse (String.mk d) = some j →
      j.getField "type" = some (Json.str "content_block_delta") →
      (j.getField "delta").bind (fun x => x.getField "text") = some (Json.str s) →
      s ≠ "" →
      anthropicLine parse line = ([Chunk.text s], false))
    ∧ (∀ (line d : List Char) (j : Json) (s : String),
      line = "data: ".toList ++ d →
      d ≠ "[DONE]".toList →
      parse (String.mk d) = some j →
      ((j.getField "choices").bind (fun c => c.getIdx 0)
        |>.bind (fun x => x.getField "delta")
        |>.bind (fun x => x.getField "content")) = some (Json.str s) →
      s ≠ "" →
      openAILine parse line = ([Chunk.text s], false))
    ∧ (∀ (line : List Char) (j : Json) (s : String),
      jsTrim line ≠ [] →
      parse (String.mk line) = some j →
      (j.getField "message").bind (fun x => x.getField "content")
        = some (Json.str s) →
      s ≠ "" →
      ollamaLine parse line = ([Chunk.text s], ollamaDone j))
    ∧ (∀ (line d : List Char) (j : Json),
      line = "data: ".toList ++ d →
      d ≠ "[DONE]".toList →
      parse (String.mk d) = some j →
      j.getField "type" = some (Json.str "content_block_delta") →
      (j.getField "delta").bind (fun x => x.getField "text")
        = some (Json.str "") →
      anthropicLine parse line = ([], false))
    ∧ (∀ (line d : List Char) (j : Json),
      line = "data: ".toList ++ d →
      d ≠ "[DONE]".toList →
      parse (String.mk d) = some j →
      ((j.getField "choices").bind (fun c => c.getIdx 0)
        |>.bind (fun x => x.getField "delta")
        |>.bind (fun x => x.getField "content")) = some (Json.str "") →
      openAILine parse line = ([], false))
    ∧ (∀ (line : List Char) (j : Json),
      jsTrim line ≠ [] →
      parse (String.mk line) = some j →
      (j.getField "message").bind (fun x => x.getField "content")
        = some (Json.str "") →
      ollamaLine parse line = ([], ollamaDone j))
    ∧ (∀ (l1 l2 : List Char) (cs1 cs2 : List Chunk),
      anthropicLine parse l1 = (cs1, false) →
      anthropicLine parse l2 = (cs2, false) →
      (processLines (anthropicLine parse) [l1, l2]).1 = cs1 ++ cs2) := by
  refine ⟨?_, ?_, ?_, ?_, ?_, ?_, ?_⟩
  · intro line d j s hline hdone hj hty hdelta hs
    subst hline
    have hpre : "data: ".toList.isPrefixOf ("data: ".toList ++ d) = true := by
      rw [ List.isPrefixOf_iff_prefix]
      exact List.prefix_append _ d
    have hdrop : ("data: ".toList ++ d).drop 6 = d := by
      have h6 : (6 : Nat) = "data: ".toList.length := rfl
      rw [h6, List.drop_left]
    have htruthy : (Json.str s).truthy = true := by
      simp [Json.truthy, hs]
    simp only [anthropicLine, hpre, if_true, hdrop, if_neg hdone, hj,
      anthropicDelta, hty, hdelta, Json.isStr, htruthy]
    simp [Json.jsCoerceString]
  · intro line d j s hline hdone hj hpath hs
    subst hline
    have hpre : "data: ".toList.isPrefixOf ("data: ".toList ++ d) = true := by
      rw [ List.isPrefixOf_iff_prefix]
      exact List.prefix_append _ d
    have hdrop : ("data: ".toList ++ d).drop 6 = d := by
      have h6 : (6 : Nat) = "data: ".toList.length := rfl
      rw [h6, List.drop_left]
    have htruthy : (Json.str s).truthy = true := by
      simp [Json.truthy, hs]
    simp only [openAILine, hpre, if_true, hdrop, if_neg hdone, hj,
      openAIDelta, hpath, htruthy]
    simp [Json.jsCoerceString]
  · intro line j s ht hj hpath hs
    have hcontent : ollamaContent j = some (Json.str s) := by
      simp [ollamaContent, hpath, Json.truthy, hs]
    simp [ollamaLine, ht, hj, hcontent, Json.jsCoerceString]
  · intro line d j hline hdone hj hty hdelta
    subst hline
    have hdeltaNone : anthropicDelta j = none := by
      simp [anthropicDelta, hty, hdelta, Json.isStr, Json.truthy]
    exact sseLine_malformed parse d hdone (Or.inr ⟨j, hj, hdeltaNone⟩)
  · intro line d j hline hdone hj hpath
    subst hline
    have hdeltaNone : openAIDelta j = none := by
      simp [openAIDelta, hpath, Json.truthy]
    exact openAILine_malformed parse d hdone (Or.inr ⟨j, hj, hdeltaNone⟩)
  · intro line j ht hj hpath
    have hcontent : ollamaContent j = none := by
      simp [ollamaContent, hpath, Json.truthy]
    simp [ollamaLine, ht, hj, hcontent]
  · intro l1 l2 cs1 cs2 h1 h2
    simp [processLines, h1, h2]

/-- C6 witness: an Anthropic frame with delta text `"Hi there"` (embedded
space preserved), an Ollama frame with content `"Hel"` (done flag
passed through), and the general empty-string-skip conjuncts at concrete
Anthropic and Ollama frames. -/
theorem claim_C6_text_delta_verbatim_witness :
    (anthropicLine
      (fun t => if t = "hipayload" then
          some (Json.obj [("type", Json.str "content_block_delta"),
                          ("delta", Json.obj [("text", Json.str "Hi there")])])
        else none)
      "data: hipayload".toList = ([Chunk.text "Hi there"], false))
    ∧ (ollamaLine
      (fun t => if t = "helframe" then
          some (Json.obj [("message", Json.obj [("content", Json.str "Hel")])])
        else none)
      "helframe".toList
      = ([Chunk.text "Hel"],
         ollamaDone (Json.obj [("message", Json.obj [("content", Json.str "Hel")])])))
    ∧ (anthropicLine
      (fun t => if t = "emptypayload" then
          some (Json.obj [("type", Json.str "content_block_delta"),
                          ("delta", Json.obj [("text", Json.str "")])])
        else none)
      "data: emptypayload".toList = ([], false))
    ∧ (ollamaLine
      (fun t => if t = "emptyframe" then
          some (Json.obj [("message", Json.obj [("content", Json.str "")])])
        else none)
      "emptyframe".toList
      = ([], ollamaDone (Json.obj [("message", Json.obj [("content", Json.str "")])]))) :=
  ⟨(claim_C6_text_delta_verbatim
      (fun t => if t = "hipayload" then
          some (Json.obj [("type", Json.str "content_block_delta"),
                          ("delta", Json.obj [("text", Json.str "Hi there")])])
        else none)).1
    "data: hipayload".toList "hipayload".toList
    (Json.obj [("type", Json.str "content_block_delta"),
               ("delta", Json.obj [("text", Json.str "Hi there")])])
    "Hi there" (by decide) (by decide) rfl rfl rfl (by decide),
   (claim_C6_text_delta_verbatim
      (fun t => if t = "helframe" then
          some (Json.obj [("message", Json.obj [("content", Json.str "Hel")])])
        else none)).2.2.1
    "helframe".toList
    (Json.obj [("message", Json.obj [("content", Json.str "Hel")])])
    "Hel" (by decide) rfl rfl (by decide),
   (claim_C6_text_delta_verbatim
      (fun t => if t = "emptypayload" then
          some (Json.obj [("type", Json.str "content_block_delta"),
                          ("delta", Json.obj [("text", Json.str "")])])
        else none)).2.2.2.1
    "data: emptypayload".toList "emptypayload".toList
    (Json.obj [("type", Json.str "content_block_delta"),
               ("delta", Json.obj [("text", Json.str "")])])
    (by decide) (by decide) rfl rfl rfl,
   (claim_C6_text_delta_verbatim
      (fun t => if t = "emptyframe" then
          some (Json.obj [("message", Json.obj [("content", Json.str "")])])
        else none)).2.2.2.2.2.1
    "emptyframe".toList
    (Json.obj [("message", Json.obj [("content", Json.str "")])])
    (by decide) rfl rfl⟩

end Cline
